import Mathlib

/-!
Shallow embedding of the battleship rules engine
(src/logic/src: board.rs, ships.rs, players.rs, game.rs, lib.rs).

Machine integers (u8, u64) are modelled as Nat: every arithmetic
operation in the embedded code either saturates in Rust or stays far
below the overflow bound, so no wrap-around is observable.

The module validation.rs is declared in lib.rs but its source is not
available; the two functions the embedded code calls from it
(validate_ship_placement, validate_fleet_composition) are modelled from
the specification, as marked in their doc comments.
-/

namespace Battleship

/-- Cell states of a board position, from board.rs (enum Cell). -/
inductive Cell
  | Empty
  | Ship
  | Hit
  | Miss
  | Pending
deriving DecidableEq, Repr

/-- Cell to raw u8 encoding, from board.rs (Cell::to_u8). -/
def Cell.to_u8 : Cell → Nat
  | Cell.Empty => 0
  | Cell.Ship => 1
  | Cell.Hit => 2
  | Cell.Miss => 3
  | Cell.Pending => 4

/-- Raw u8 to Cell decoding, from board.rs (Cell::from_u8); every value
other than 1..4 decodes to Empty. -/
def Cell.from_u8 (value : Nat) : Cell :=
  if value = 1 then Cell.Ship
  else if value = 2 then Cell.Hit
  else if value = 3 then Cell.Miss
  else if value = 4 then Cell.Pending
  else Cell.Empty

/-- Board side length, from board.rs (BOARD_SIZE = 10). -/
def BOARD_SIZE : Nat := 10

/-- Domain errors, from lib.rs (enum GameError). -/
inductive GameError
  | NotFound : String → GameError
  | Invalid : String → GameError
  | Forbidden : String → GameError
  | Finished : GameError
deriving DecidableEq, Repr

/-- A position on the board, from board.rs (struct Coordinate, u8 fields). -/
structure Coordinate where
  x : Nat
  y : Nat
deriving DecidableEq, Repr

/-- Coordinate constructor, from board.rs (Coordinate::new). -/
def Coordinate.new (x y : Nat) : Except GameError Coordinate :=
  if x ≥ BOARD_SIZE ∨ y ≥ BOARD_SIZE then
    Except.error (GameError.Invalid "coordinate out of bounds")
  else
    Except.ok { x := x, y := y }

/-- Coordinate validity, from board.rs (Coordinate::is_valid). -/
def Coordinate.is_valid (c : Coordinate) : Bool :=
  decide (c.x < BOARD_SIZE) && decide (c.y < BOARD_SIZE)

/-- The flat board, from board.rs (struct Board(Vec of u8)); cells hold the
raw u8 encoding of Cell. -/
structure Board where
  cells : List Nat
deriving DecidableEq, Repr

/-- Fresh all-zero board, from board.rs (Board::new_zeroed). -/
def Board.new_zeroed (size : Nat) : Board :=
  { cells := List.replicate (size * size) 0 }

/-- Row-major index, from board.rs (Board::idx). -/
def Board.idx (size x y : Nat) : Nat :=
  y * size + x

/-- Bounds predicate, from board.rs (Board::in_bounds). -/
def Board.in_bounds (size x y : Nat) : Bool :=
  decide (x < size) && decide (y < size)

/-- Cell read, from board.rs (Board::get). The Rust indexing panics out of
bounds; the model returns the raw value 0 there, and the in-bounds proofs
show that path is never taken by the embedded operations. -/
def Board.get (b : Board) (size x y : Nat) : Cell :=
  Cell.from_u8 (b.cells.getD (Board.idx size x y) 0)

/-- Cell write, from board.rs (Board::set); List.set is the identity out of
bounds, where the Rust code would panic. -/
def Board.set (b : Board) (size x y : Nat) (cell : Cell) : Board :=
  { cells := b.cells.set (Board.idx size x y) cell.to_u8 }

/-- The eight neighbour offsets scanned by Board::is_adjacent_violation
(the dx, dy double loop over -1..=1 minus the centre). -/
def neighborDeltas : List (Int × Int) :=
  [(-1, -1), (0, -1), (1, -1), (-1, 0), (1, 0), (-1, 1), (0, 1), (1, 1)]

/-- Adjacency scan, from board.rs (Board::is_adjacent_violation): true when
any in-bounds neighbour of (x, y) holds Ship. -/
def Board.is_adjacent_violation (b : Board) (size x y : Nat) : Bool :=
  neighborDeltas.any fun d =>
    let nx : Int := (x : Int) + d.1
    let ny : Int := (y : Int) + d.2
    if nx < 0 ∨ ny < 0 then false
    else
      let nxu := nx.toNat
      let nyu := ny.toNat
      if nxu ≥ size ∨ nyu ≥ size then false
      else b.get size nxu nyu == Cell.Ship

/-- A single ship, from ships.rs (struct Ship). -/
structure Ship where
  coordinates : List Coordinate
  length : Nat
deriving DecidableEq, Repr

/-- Ship constructor, from ships.rs (Ship::new): rejects the empty list,
then computes the length through the truncating cast len() as u8,
modelled as reduction mod 256, rejects a wrapped length outside 2..=5
and out-of-bounds coordinates, in that order. No other property is
checked here; a list of 258 coordinates wraps to length 2 and passes. -/
def Ship.new (coordinates : List Coordinate) : Except GameError Ship :=
  if coordinates.isEmpty then
    Except.error (GameError.Invalid "ship cannot be empty")
  else
    let length := coordinates.length % 256
    if length < 2 ∨ length > 5 then
      Except.error (GameError.Invalid "ship length must be 2-5")
    else if coordinates.any (fun c => ! c.is_valid) then
      Except.error (GameError.Invalid "ship contains invalid coordinates")
    else
      Except.ok { coordinates := coordinates, length := length }

/-- Straightness of a coordinate list, the body of Ship::is_straight in
ships.rs: all share x, exclusive-or all share y. -/
def listIsStraight (cs : List Coordinate) : Bool :=
  if cs.length ≤ 1 then true
  else
    match cs with
    | [] => true
    | c0 :: _ =>
      let same_x := cs.all fun c => c.x == c0.x
      let same_y := cs.all fun c => c.y == c0.y
      xor same_x same_y

/-- Insertion step of a stable sort on the chosen key; models the
sort_by_key call in Ship::is_contiguous. Tie order cannot change the
outcome of the unit-step scan, since a tied pair already fails it. -/
def insertByKey (key : Coordinate → Nat) (c : Coordinate) :
    List Coordinate → List Coordinate
  | [] => [c]
  | d :: ds => if key c ≤ key d then c :: d :: ds else d :: insertByKey key c ds

/-- Sort a coordinate list by a Nat key (insertion sort). -/
def sortByKey (key : Coordinate → Nat) (cs : List Coordinate) : List Coordinate :=
  cs.foldr (insertByKey key) []

/-- Unit-step scan over consecutive pairs of the sorted run, the windows(2)
loop of Ship::is_contiguous: each step must be exactly (0,1) when the ship
shares x, and exactly (1,0) otherwise. -/
def contigSteps (same_x : Bool) : List Coordinate → Bool
  | [] => true
  | [_] => true
  | a :: b :: rest =>
    let step : Int × Int := if same_x then (0, 1) else (1, 0)
    let d : Int × Int := ((b.x : Int) - (a.x : Int), (b.y : Int) - (a.y : Int))
    (d == step) && contigSteps same_x (b :: rest)

/-- Contiguity of a coordinate list, the body of Ship::is_contiguous in
ships.rs: sort by y when all share x, else by x, then demand unit steps. -/
def listIsContiguous (cs : List Coordinate) : Bool :=
  if cs.length ≤ 1 then true
  else
    match cs with
    | [] => true
    | c0 :: _ =>
      let same_x := cs.all fun c => c.x == c0.x
      let sorted :=
        if same_x then sortByKey (fun c => c.y) cs
        else sortByKey (fun c => c.x) cs
      contigSteps same_x sorted

/-- Straightness, from ships.rs (Ship::is_straight). -/
def Ship.is_straight (s : Ship) : Bool :=
  listIsStraight s.coordinates

/-- Contiguity, from ships.rs (Ship::is_contiguous). -/
def Ship.is_contiguous (s : Ship) : Bool :=
  listIsContiguous s.coordinates

/-- Chebyshev adjacency of two coordinates, the inner comparison of
Ship::is_adjacent_to in ships.rs. -/
def coordsAdjacent (c1 c2 : Coordinate) : Bool :=
  let dx := ((c1.x : Int) - (c2.x : Int)).natAbs
  let dy := ((c1.y : Int) - (c2.y : Int)).natAbs
  decide (dx ≤ 1) && decide (dy ≤ 1) && ! (decide (dx = 0) && decide (dy = 0))

/-- Overlap test, from ships.rs (Ship::overlaps_with). -/
def Ship.overlaps_with (s other : Ship) : Bool :=
  s.coordinates.any fun c1 => other.coordinates.any fun c2 => c1 == c2

/-- Adjacency test, from ships.rs (Ship::is_adjacent_to). -/
def Ship.is_adjacent_to (s other : Ship) : Bool :=
  s.coordinates.any fun c1 => other.coordinates.any fun c2 => coordsAdjacent c1 c2

/-- Per-length tallies for the fleet, the ship_counts array of
players.rs and ships.rs, indexed by length - 2 for lengths 2..=5. -/
structure ShipCounts where
  len2 : Nat
  len3 : Nat
  len4 : Nat
  len5 : Nat
deriving DecidableEq, Repr

/-- Increment of ship_counts[len - 2]; the callers only reach this under a
2..=5 length guard, so the final branch is exactly length 5. -/
def ShipCounts.bump (cnt : ShipCounts) (len : Nat) : ShipCounts :=
  if len = 2 then { cnt with len2 := cnt.len2 + 1 }
  else if len = 3 then { cnt with len3 := cnt.len3 + 1 }
  else if len = 4 then { cnt with len4 := cnt.len4 + 1 }
  else { cnt with len5 := cnt.len5 + 1 }

/-- Any pair of coordinate groups from two distinct ships adjacent to one
another (Chebyshev distance at most one, not equal). -/
def anyPairAdjacent : List (List Coordinate) → Bool
  | [] => false
  | cs :: rest =>
    (rest.any fun ds => cs.any fun c1 => ds.any fun c2 => coordsAdjacent c1 c2)
      || anyPairAdjacent rest

/-- Modelled from the spec: validate_ship_placement lives in
src/logic/src/validation.rs, which is absent from the sources. Spec 4.3
fixes the per-ship strategies and their order, each short-circuiting:
bounds, straight line, contiguity, overlap with Ship cells on the own
board, adjacency to Ship cells in the 8-neighbourhood, ship length 2-5. -/
def validate_ship_placement (board : Board) (coords : List Coordinate)
    (size : Nat) : Except GameError Unit :=
  if ¬ coords.all (fun c => Board.in_bounds size c.x c.y) then
    Except.error (GameError.Invalid "coordinate out of bounds")
  else if ¬ listIsStraight coords then
    Except.error (GameError.Invalid "ship must be straight")
  else if ¬ listIsContiguous coords then
    Except.error (GameError.Invalid "ship must be contiguous")
  else if coords.any (fun c => board.get size c.x c.y == Cell.Ship) then
    Except.error (GameError.Invalid "ship overlaps another ship")
  else if coords.any (fun c => board.is_adjacent_violation size c.x c.y) then
    Except.error (GameError.Invalid "ship adjacent to another ship")
  else if coords.length < 2 ∨ coords.length > 5 then
    Except.error (GameError.Invalid "ship length must be 2-5")
  else
    Except.ok ()

/-- Modelled from the spec: validate_fleet_composition lives in
src/logic/src/validation.rs, which is absent from the sources. Spec 4.2
and 4.3 fix the fleet-level strategies: the exact multiset of lengths
(one 2, two 3, one 4, one 5), no duplicate coordinate across the whole
fleet, and no pairwise adjacency between ships. -/
def validate_fleet_composition (counts : ShipCounts)
    (ship_coordinates : List (List Coordinate)) : Except GameError Unit :=
  if ¬ (counts.len2 = 1 ∧ counts.len3 = 2 ∧ counts.len4 = 1 ∧ counts.len5 = 1) then
    Except.error (GameError.Invalid "fleet composition mismatch")
  else if ¬ ship_coordinates.flatten.Nodup then
    Except.error (GameError.Invalid "duplicate coordinates in fleet")
  else if anyPairAdjacent ship_coordinates then
    Except.error (GameError.Invalid "ships overlap or touch")
  else
    Except.ok ()

/-- A fleet of ships, from ships.rs (struct Fleet). -/
structure Fleet where
  ships : List Ship
deriving Repr

/-- Fleet constructor, from ships.rs (Fleet::new): tallies per-length
counts (rejecting any length whose index falls outside the array) and
defers to the composition validator. -/
def Fleet.new (ships : List Ship) : Except GameError Fleet :=
  let rec tally : List Ship → ShipCounts → Except GameError ShipCounts
    | [], cnt => Except.ok cnt
    | s :: rest, cnt =>
      if s.length - 2 ≥ 4 ∨ s.length < 2 then
        Except.error (GameError.Invalid "invalid ship length")
      else tally rest (cnt.bump s.length)
  match tally ships { len2 := 0, len3 := 0, len4 := 0, len5 := 0 } with
  | Except.error e => Except.error e
  | Except.ok counts =>
    let ship_coordinates := ships.map fun s => s.coordinates
    match validate_fleet_composition counts ship_coordinates with
    | Except.error e => Except.error e
    | Except.ok _ => Except.ok { ships := ships }

/-- Separator split on a character list; models the str::split calls in
ShipValidator::parse_ship_coords (an empty input yields one empty chunk,
adjacent separators yield empty chunks, as in Rust). -/
def splitOnChar (sep : Char) : List Char → List (List Char)
  | [] => [[]]
  | c :: rest =>
    let r := splitOnChar sep rest
    if c = sep then [] :: r
    else
      match r with
      | [] => [[c]]
      | h :: t => (c :: h) :: t

/-- Whitespace trim on a character list; models str::trim. -/
def trimChars (cs : List Char) : List Char :=
  ((cs.dropWhile Char.isWhitespace).reverse.dropWhile Char.isWhitespace).reverse

/-- Decimal value of a digit string. -/
def digitsToNat (cs : List Char) : Nat :=
  cs.foldl (fun n c => n * 10 + (c.toNat - 48)) 0

/-- Model of str::parse::<u8> in Rust: optional leading plus sign, then
decimal digits only, value at most 255. -/
def parseU8Chars (cs : List Char) : Option Nat :=
  let t := match cs with
    | '+' :: rest => rest
    | other => other
  if t.isEmpty then none
  else if t.all Char.isDigit then
    let n := digitsToNat t
    if n ≤ 255 then some n else none
  else none

/-- Ship framing parser, from ships.rs (ShipValidator::parse_ship_coords):
semicolon-separated pairs x,y; blank chunks and malformed pairs are
silently dropped. The Rust signature wraps the list in Result but never
returns Err, so the model returns the list directly. -/
def ShipValidator.parse_ship_coords (group : String) : List Coordinate :=
  (splitOnChar ';' group.toList).filterMap fun p =>
    let p := trimChars p
    if p.isEmpty then none
    else
      let parts := splitOnChar ',' p
      let sx := parts.getD 0 []
      let sy := parts.getD 1 []
      match parseU8Chars sx, parseU8Chars sy with
      | some x, some y => (Coordinate.new x y).toOption
      | _, _ => none

/-- Placement wrapper, from ships.rs (ShipValidator::validate_ship_placement):
rejects the empty list, then runs the validation pipeline. -/
def ShipValidator.validate_ship_placement (board : Board) (size : Nat)
    (coords : List Coordinate) : Except GameError Unit :=
  if coords.isEmpty then Except.error (GameError.Invalid "empty ship")
  else Battleship.validate_ship_placement board coords size

/-- Opaque 32-byte player identity, from players.rs (struct PublicKey);
only equality is used by the embedded operations, so the bytes are
modelled as a Nat list. -/
structure PublicKey where
  bytes : List Nat
deriving DecidableEq, Repr

/-- One player private state, from players.rs (struct PlayerBoard). -/
structure PlayerBoard where
  own : Board
  ships : Nat
  placed : Bool
deriving DecidableEq, Repr

/-- Fresh player board, from players.rs (PlayerBoard::new). -/
def PlayerBoard.new : PlayerBoard :=
  { own := Board.new_zeroed BOARD_SIZE, ships := 0, placed := false }

/-- Board accessor, from players.rs (PlayerBoard::get_board). -/
def PlayerBoard.get_board (pb : PlayerBoard) : Board :=
  pb.own

/-- Placement flag accessor, from players.rs (PlayerBoard::is_placed). -/
def PlayerBoard.is_placed (pb : PlayerBoard) : Bool :=
  pb.placed

/-- Remaining-ship counter accessor, from players.rs
(PlayerBoard::get_ship_count). -/
def PlayerBoard.get_ship_count (pb : PlayerBoard) : Nat :=
  pb.ships

/-- Counter decrement, from players.rs (PlayerBoard::decrement_ships):
saturating, never below zero. -/
def PlayerBoard.decrement_ships (pb : PlayerBoard) : PlayerBoard :=
  if pb.ships > 0 then { pb with ships := pb.ships - 1 } else pb

/-- Writes one parsed ship onto the own board, the inner for loop of
PlayerBoard::place_ships: each coordinate becomes a Ship cell. -/
def placeCoords (b : Board) (coords : List Coordinate) : Board :=
  coords.foldl (fun acc c => acc.set BOARD_SIZE c.x c.y Cell.Ship) b

/-- The group loop of PlayerBoard::place_ships in players.rs, with the
mutable state threaded explicitly. An error carries the own board and
counter as mutated so far, because the Rust method mutates self in place
and an early return with `?` keeps those writes. The locals ship_counts,
total_ships and all_ship_coordinates are threaded as arguments. -/
def placeShipsLoop : List String → Board → Nat → ShipCounts → Nat →
    List (List Coordinate) →
    Except (Board × Nat × GameError)
      (Board × Nat × ShipCounts × Nat × List (List Coordinate))
  | [], own, scnt, cnt, total, acc => Except.ok (own, scnt, cnt, total, acc)
  | g :: rest, own, scnt, cnt, total, acc =>
    let coords := ShipValidator.parse_ship_coords g
    if coords.isEmpty then placeShipsLoop rest own scnt cnt total acc
    else
      let ship_len := coords.length
      if ship_len < 2 ∨ ship_len > 5 then
        Except.error (own, scnt, GameError.Invalid "ship length must be 2-5")
      else if ship_len - 2 ≥ 4 then
        Except.error (own, scnt, GameError.Invalid "invalid ship length")
      else
        let cnt' := cnt.bump ship_len
        let total' := total + 1
        let acc' := acc ++ [coords]
        match ShipValidator.validate_ship_placement own BOARD_SIZE coords with
        | Except.error e => Except.error (own, scnt, e)
        | Except.ok _ =>
          placeShipsLoop rest (placeCoords own coords)
            (scnt + coords.length) cnt' total' acc'

/-- Fleet placement, from players.rs (PlayerBoard::place_ships). Returns
the player board as left by the call together with the optional error:
the Rust method mutates self even on the paths that end in Err. -/
def PlayerBoard.place_ships (pb : PlayerBoard) (ships : List String) :
    PlayerBoard × Option GameError :=
  if pb.placed then (pb, some (GameError.Invalid "already placed"))
  else
    match placeShipsLoop ships pb.own pb.ships
        { len2 := 0, len3 := 0, len4 := 0, len5 := 0 } 0 [] with
    | Except.error (own', scnt', e) =>
      ({ pb with own := own', ships := scnt' }, some e)
    | Except.ok (own', scnt', counts, total, all_coords) =>
      if total = 0 then
        ({ pb with own := own', ships := scnt' }, some (GameError.Invalid "no ships"))
      else
        match validate_fleet_composition counts all_coords with
        | Except.error e => ({ pb with own := own', ships := scnt' }, some e)
        | Except.ok _ =>
          ({ pb with own := own', ships := scnt', placed := true }, none)

/-- Shared match state, from game.rs (struct Match). -/
structure Match where
  id : String
  player1 : PublicKey
  player2 : PublicKey
  turn : PublicKey
  winner : Option PublicKey
  placed_p1 : Bool
  placed_p2 : Bool
  pending_x : Option Nat
  pending_y : Option Nat
  pending_shooter : Option PublicKey
  pending_target : Option PublicKey
  shots_p1 : Board
  shots_p2 : Board
deriving DecidableEq, Repr

/-- Match constructor, from game.rs (Match::new): player1 opens. -/
def Match.new (id : String) (player1 player2 : PublicKey) : Match :=
  { id := id
    player1 := player1
    player2 := player2
    turn := player1
    winner := none
    placed_p1 := false
    placed_p2 := false
    pending_x := none
    pending_y := none
    pending_shooter := none
    pending_target := none
    shots_p1 := Board.new_zeroed BOARD_SIZE
    shots_p2 := Board.new_zeroed BOARD_SIZE }

/-- Membership test, from game.rs (Match::is_player). -/
def Match.is_player (m : Match) (player : PublicKey) : Bool :=
  player == m.player1 || player == m.player2

/-- Opponent lookup, from game.rs (Match::get_opponent): player2 when the
argument equals player1, else player1. -/
def Match.get_opponent (m : Match) (player : PublicKey) : PublicKey :=
  if player = m.player1 then m.player2 else m.player1

/-- Turn test, from game.rs (Match::is_turn). -/
def Match.is_turn (m : Match) (player : PublicKey) : Bool :=
  m.turn == player

/-- Turn switch, from game.rs (Match::switch_turn). -/
def Match.switch_turn (m : Match) : Match :=
  { m with turn := m.get_opponent m.turn }

/-- Terminal test, from game.rs (Match::is_finished). -/
def Match.is_finished (m : Match) : Bool :=
  m.winner.isSome

/-- Placement-complete test, from game.rs (Match::both_players_placed). -/
def Match.both_players_placed (m : Match) : Bool :=
  m.placed_p1 && m.placed_p2

/-- Pending-shot test, from game.rs (Match::has_pending_shot). -/
def Match.has_pending_shot (m : Match) : Bool :=
  m.pending_x.isSome

/-- Shot proposal, from game.rs (Match::propose_shot): the six guards in
source order, then the Pending mark on the shooter shot-history board and
the four pending fields; the turn is not switched. -/
def Match.propose_shot (m : Match) (shooter : PublicKey) (x y : Nat) :
    Except GameError Match :=
  if m.is_finished then Except.error GameError.Finished
  else if ¬ m.both_players_placed then
    Except.error (GameError.Invalid "both players must place ships first")
  else if x ≥ BOARD_SIZE ∨ y ≥ BOARD_SIZE then
    Except.error (GameError.Invalid "out of bounds")
  else if m.has_pending_shot then
    Except.error (GameError.Invalid "shot already pending")
  else if ¬ m.is_player shooter then
    Except.error (GameError.Forbidden "not a player")
  else if ¬ m.is_turn shooter then
    Except.error (GameError.Forbidden "not your turn")
  else
    let m1 :=
      if shooter = m.player1 then
        { m with shots_p1 := m.shots_p1.set BOARD_SIZE x y Cell.Pending }
      else
        { m with shots_p2 := m.shots_p2.set BOARD_SIZE x y Cell.Pending }
    let opponent := m.get_opponent shooter
    Except.ok
      { m1 with
        pending_x := some x
        pending_y := some y
        pending_shooter := some shooter
        pending_target := some opponent }

/-- Shot acknowledgement, from game.rs (Match::acknowledge_shot): checks
the caller is the recorded target; mutates nothing. -/
def Match.acknowledge_shot (m : Match) (target : PublicKey) :
    Except GameError String :=
  match m.pending_target with
  | none => Except.error (GameError.Invalid "no pending shot")
  | some pending_target =>
    if pending_target ≠ target then Except.error (GameError.Forbidden "not the target")
    else Except.ok "acknowledged"

/-- Shot resolution on the Match, from game.rs (Match::resolve_shot):
takes the pending fields, writes Hit or Miss to the shooter shot-history
cell, switches the turn unless a winner is set, and returns the label.
The Rust code panics via expect when no shot is pending; the model
returns none there. -/
def Match.resolve_shot (m : Match) (is_hit : Bool) : Option (Match × String) :=
  match m.pending_x, m.pending_y, m.pending_shooter with
  | some x, some y, some shooter =>
    let result := if is_hit then "hit" else "miss"
    let shot_result := if is_hit then Cell.Hit else Cell.Miss
    let m1 := { m with
      pending_x := none
      pending_y := none
      pending_shooter := none
      pending_target := none }
    let m2 :=
      if shooter = m.player1 then
        { m1 with shots_p1 := m1.shots_p1.set BOARD_SIZE x y shot_result }
      else
        { m1 with shots_p2 := m1.shots_p2.set BOARD_SIZE x y shot_result }
    let m3 := if m2.winner = none then m2.switch_turn else m2
    some (m3, result)
  | _, _, _ => none

/-- Winner setter, from game.rs (Match::set_winner). -/
def Match.set_winner (m : Match) (winner : PublicKey) : Match :=
  { m with winner := some winner }

/-- Shot-history accessor, from game.rs (Match::get_shots_for_player). -/
def Match.get_shots_for_player (m : Match) (player : PublicKey) : Board :=
  if player = m.player1 then m.shots_p1 else m.shots_p2

/-- Cross-boundary shot resolution, from game.rs
(ShotResolver::resolve_shot): reads the target own-board cell at the
pending coordinates, writes Hit (decrementing the counter, setting the
winner at zero) or Miss onto the target own board, then delegates to
Match::resolve_shot. The returned triple carries the mutated Match and
target PlayerBoard, since the Rust function mutates both through
references. The unreachable inner branch mirrors the expect calls of
Match::resolve_shot, which cannot fire because the pending fields were
just read as present and set_winner keeps them. -/
def ShotResolver.resolve_shot (match_state : Match) (target_board : PlayerBoard) :
    Except GameError (Match × PlayerBoard × String) :=
  match match_state.pending_x, match_state.pending_y, match_state.pending_shooter with
  | some x, some y, some shooter =>
    let cur := target_board.get_board.get BOARD_SIZE x y
    let is_hit := cur == Cell.Ship
    let tb :=
      if is_hit then
        ({ target_board with
          own := target_board.own.set BOARD_SIZE x y Cell.Hit }).decrement_ships
      else
        { target_board with own := target_board.own.set BOARD_SIZE x y Cell.Miss }
    let ms :=
      if is_hit && (tb.get_ship_count == 0) then match_state.set_winner shooter
      else match_state
    match ms.resolve_shot is_hit with
    | some (ms2, result) => Except.ok (ms2, tb, result)
    | none => Except.error (GameError.Invalid "no pending shot")
  | _, _, _ => Except.error (GameError.Invalid "no pending shot")

/-- Number of Ship cells on a board (raw value 1), used to state the
placement invariants. -/
def Board.ship_count (b : Board) : Nat :=
  b.cells.count 1

/-- States of the shared Match reachable from Match::new through the
mutating operations of the embedded code: the Match methods
propose_shot, acknowledge_shot, resolve_shot and set_winner, plus the
two placement-flag writes that BattleshipState::place_ships in lib.rs
performs after a successful board placement. -/
inductive Reachable : Match → Prop where
  | new : ∀ (id : String) (p1 p2 : PublicKey), Reachable (Match.new id p1 p2)
  | propose : ∀ {m : Match} {s : PublicKey} {x y : Nat} {m' : Match},
      Reachable m → Match.propose_shot m s x y = Except.ok m' → Reachable m'
  | ack : ∀ {m : Match} {t : PublicKey} {r : String},
      Reachable m → Match.acknowledge_shot m t = Except.ok r → Reachable m
  | resolve : ∀ {m : Match} {hit : Bool} {m' : Match} {r : String},
      Reachable m → Match.resolve_shot m hit = some (m', r) → Reachable m'
  | winner : ∀ {m : Match} {p : PublicKey},
      Reachable m → Reachable (m.set_winner p)
  | place1 : ∀ {m : Match}, Reachable m → Reachable { m with placed_p1 := true }
  | place2 : ∀ {m : Match}, Reachable m → Reachable { m with placed_p2 := true }

/-- All four pending fields populated. -/
def pendingAllSome (m : Match) : Prop :=
  m.pending_x.isSome = true ∧ m.pending_y.isSome = true ∧
  m.pending_shooter.isSome = true ∧ m.pending_target.isSome = true

/-- All four pending fields absent. -/
def pendingAllNone (m : Match) : Prop :=
  m.pending_x = none ∧ m.pending_y = none ∧
  m.pending_shooter = none ∧ m.pending_target = none

/-- Concrete identities and states used by the witness and counterexample
theorems. -/
def p1ex : PublicKey :=
  { bytes := [1] }

/-- Second concrete player identity. -/
def p2ex : PublicKey :=
  { bytes := [2] }

/-- A match in which both players have completed placement. -/
def matchReady : Match :=
  { { Match.new "m" p1ex p2ex with placed_p1 := true } with placed_p2 := true }

/-- The match produced by a successful propose_shot of player1 at (0,0)
on matchReady. -/
def pendingMatchEx : Match :=
  { id := "m"
    player1 := p1ex
    player2 := p2ex
    turn := p1ex
    winner := none
    placed_p1 := true
    placed_p2 := true
    pending_x := some 0
    pending_y := some 0
    pending_shooter := some p1ex
    pending_target := some p2ex
    shots_p1 := (Board.new_zeroed BOARD_SIZE).set BOARD_SIZE 0 0 Cell.Pending
    shots_p2 := Board.new_zeroed BOARD_SIZE }

/-- The match left after resolving the pending shot of pendingMatchEx as
a miss: pending cleared, shot history records Miss, turn passes to the
opponent. -/
def resolvedMissEx : Match :=
  { id := "m"
    player1 := p1ex
    player2 := p2ex
    turn := p2ex
    winner := none
    placed_p1 := true
    placed_p2 := true
    pending_x := none
    pending_y := none
    pending_shooter := none
    pending_target := none
    shots_p1 := ((Board.new_zeroed BOARD_SIZE).set BOARD_SIZE 0 0
      Cell.Pending).set BOARD_SIZE 0 0 Cell.Miss
    shots_p2 := Board.new_zeroed BOARD_SIZE }

/-- The fresh player board after the resolver records a miss at (0,0). -/
def missedPbEx : PlayerBoard :=
  { own := (Board.new_zeroed BOARD_SIZE).set BOARD_SIZE 0 0 Cell.Miss
    ships := 0
    placed := false }

/-- A player board holding a single remaining Ship cell at (0,0). -/
def pbShipAt00 : PlayerBoard :=
  { own := (Board.new_zeroed BOARD_SIZE).set BOARD_SIZE 0 0 Cell.Ship
    ships := 1
    placed := true }

/-- A complete legal fleet submission: lengths 5, 4, 3, 3, 2 on separated
rows. -/
def fleetEx : List String :=
  ["0,0;1,0;2,0;3,0;4,0", "0,2;1,2;2,2;3,2", "0,4;1,4;2,4",
   "0,6;1,6;2,6", "0,8;1,8"]

/-- The match left after resolving the pending shot of pendingMatchEx as
the winning hit of player1: winner set, pending cleared, shot history
records Hit, turn kept. -/
def resolvedHitEx : Match :=
  { id := "m"
    player1 := p1ex
    player2 := p2ex
    turn := p1ex
    winner := some p1ex
    placed_p1 := true
    placed_p2 := true
    pending_x := none
    pending_y := none
    pending_shooter := none
    pending_target := none
    shots_p1 := ((Board.new_zeroed BOARD_SIZE).set BOARD_SIZE 0 0
      Cell.Pending).set BOARD_SIZE 0 0 Cell.Hit
    shots_p2 := Board.new_zeroed BOARD_SIZE }

/-- The player board left after the winning hit at (0,0). -/
def hitPbEx : PlayerBoard :=
  { own := ((Board.new_zeroed BOARD_SIZE).set BOARD_SIZE 0 0
      Cell.Ship).set BOARD_SIZE 0 0 Cell.Hit
    ships := 0
    placed := true }

/-- The diagonal two-cell coordinate list used against claim C1. -/
def diagCoords : List Coordinate :=
  [{ x := 0, y := 0 }, { x := 1, y := 1 }]

/-- A 258-element coordinate list whose length the u8 cast wraps to 2. -/
def wrapCoords : List Coordinate :=
  List.replicate 258 { x := 0, y := 0 }

/-- The Ship value Ship::new builds from wrapCoords: the stored length
is the wrapped value 2. -/
def wrapShip : Ship :=
  { coordinates := wrapCoords, length := 2 }

/-- The Ship value Ship::new builds from diagCoords. -/
def diagShip : Ship :=
  { coordinates := diagCoords, length := 2 }

/-! Helper lemmas about cells, raw lists and boards. -/

theorem Cell.from_u8_to_u8 (c : Cell) : Cell.from_u8 c.to_u8 = c := by
  cases c <;> rfl

theorem Cell.from_u8_eq_ship_iff (v : Nat) : Cell.from_u8 v = Cell.Ship ↔ v = 1 := by
  unfold Cell.from_u8
  split_ifs <;> simp_all

theorem list_getD_set_self :
    ∀ (l : List Nat) (i v : Nat), i < l.length → (l.set i v).getD i 0 = v := by
  intro l
  induction l with
  | nil => intro i v h; simp at h
  | cons a t ih =>
    intro i v h
    cases i with
    | zero => rfl
    | succ n => simpa using ih n v (by simpa using h)

theorem list_getD_set_ne :
    ∀ (l : List Nat) (i j v : Nat), i ≠ j → (l.set i v).getD j 0 = l.getD j 0 := by
  intro l
  induction l with
  | nil => intro i j v _; simp
  | cons a t ih =>
    intro i j v h
    cases i with
    | zero =>
      cases j with
      | zero => exact absurd rfl h
      | succ m => simp
    | succ n =>
      cases j with
      | zero => simp
      | succ m => simpa using ih n m v (fun hh => h (by rw [hh]))

theorem list_count_set_one :
    ∀ (l : List Nat) (i : Nat), i < l.length → l.getD i 0 ≠ 1 →
      (l.set i 1).count 1 = l.count 1 + 1 := by
  intro l
  induction l with
  | nil => intro i h _; simp at h
  | cons a t ih =>
    intro i h hne
    cases i with
    | zero =>
      have ha : a ≠ 1 := by simpa using hne
      simp [List.count_cons, ha]
    | succ n =>
      have h1 : n < t.length := by simpa using h
      have h2 : t.getD n 0 ≠ 1 := by simpa using hne
      simp [List.count_cons, ih n h1 h2]
      omega

theorem Board.idx_lt {x y : Nat} (hx : x < 10) (hy : y < 10) :
    Board.idx 10 x y < 100 := by
  unfold Board.idx
  omega

theorem Board.idx_inj {x y u v : Nat} (hx : x < 10) (hu : u < 10)
    (h : Board.idx 10 x y = Board.idx 10 u v) : x = u ∧ y = v := by
  unfold Board.idx at h
  omega

theorem Board.length_set (b : Board) (size x y : Nat) (c : Cell) :
    (b.set size x y c).cells.length = b.cells.length := by
  simp [Board.set]

theorem Board.get_set_self (b : Board) {x y : Nat} (c : Cell)
    (hx : x < 10) (hy : y < 10) (hlen : b.cells.length = 100) :
    (b.set 10 x y c).get 10 x y = c := by
  unfold Board.get Board.set
  rw [list_getD_set_self _ _ _ (by rw [hlen]; exact Board.idx_lt hx hy)]
  exact Cell.from_u8_to_u8 c

theorem Board.get_set_ne (b : Board) {x y u v : Nat} (c : Cell)
    (hx : x < 10) (hu : u < 10) (hne : ¬ (x = u ∧ y = v)) :
    (b.set 10 x y c).get 10 u v = b.get 10 u v := by
  unfold Board.get Board.set
  rw [list_getD_set_ne]
  intro h
  exact hne (Board.idx_inj hx hu h)

theorem Board.ship_count_set_ship (b : Board) {x y : Nat}
    (hx : x < 10) (hy : y < 10) (hlen : b.cells.length = 100)
    (hno : b.get 10 x y ≠ Cell.Ship) :
    (b.set 10 x y Cell.Ship).ship_count = b.ship_count + 1 := by
  unfold Board.ship_count Board.set
  have hraw : b.cells.getD (Board.idx 10 x y) 0 ≠ 1 := by
    intro h
    exact hno (by unfold Board.get; rw [h]; rfl)
  exact list_count_set_one b.cells (Board.idx 10 x y)
    (by rw [hlen]; exact Board.idx_lt hx hy) hraw

theorem placeCoords_length (coords : List Coordinate) (b : Board) :
    (placeCoords b coords).cells.length = b.cells.length := by
  induction coords generalizing b with
  | nil => rfl
  | cons c rest ih =>
    show (placeCoords (b.set BOARD_SIZE c.x c.y Cell.Ship) rest).cells.length = _
    rw [ih, Board.length_set]

theorem placeCoords_spec (coords : List Coordinate) (b : Board)
    (hlen : b.cells.length = 100) (hnd : coords.Nodup)
    (hbd : ∀ c ∈ coords, c.x < 10 ∧ c.y < 10)
    (hns : ∀ c ∈ coords, b.get 10 c.x c.y ≠ Cell.Ship) :
    (placeCoords b coords).ship_count = b.ship_count + coords.length := by
  induction coords generalizing b with
  | nil => rfl
  | cons c rest ih =>
    have hc := hbd c (List.mem_cons_self c rest)
    have hcs := hns c (List.mem_cons_self c rest)
    have hstep : (b.set 10 c.x c.y Cell.Ship).ship_count = b.ship_count + 1 :=
      Board.ship_count_set_ship b hc.1 hc.2 hlen hcs
    have hnotmem : c ∉ rest := (List.nodup_cons.mp hnd).1
    have hrest : (placeCoords (b.set 10 c.x c.y Cell.Ship) rest).ship_count =
        (b.set 10 c.x c.y Cell.Ship).ship_count + rest.length := by
      refine ih (b.set 10 c.x c.y Cell.Ship) ?_ (List.nodup_cons.mp hnd).2 ?_ ?_
      · rw [Board.length_set, hlen]
      · intro d hd; exact hbd d (List.mem_cons_of_mem c hd)
      · intro d hd
        have hd10 := hbd d (List.mem_cons_of_mem c hd)
        have hne : ¬ (c.x = d.x ∧ c.y = d.y) := by
          rintro ⟨h1, h2⟩
          apply hnotmem
          have : c = d := by cases c; cases d; simp_all
          rw [this]; exact hd
        rw [Board.get_set_ne b Cell.Ship hc.1 hd10.1 hne]
        exact hns d (List.mem_cons_of_mem c hd)
    show (placeCoords (b.set BOARD_SIZE c.x c.y Cell.Ship) rest).ship_count = _
    calc (placeCoords (b.set BOARD_SIZE c.x c.y Cell.Ship) rest).ship_count
        = (b.set 10 c.x c.y Cell.Ship).ship_count + rest.length := hrest
      _ = b.ship_count + 1 + rest.length := by rw [hstep]
      _ = b.ship_count + (c :: rest).length := by simp; omega

theorem validate_ship_placement_ok_facts (board : Board)
    (coords : List Coordinate)
    (h : validate_ship_placement board coords 10 = Except.ok ()) :
    (∀ c ∈ coords, c.x < 10 ∧ c.y < 10) ∧
    (∀ c ∈ coords, board.get 10 c.x c.y ≠ Cell.Ship) ∧
    listIsStraight coords = true ∧ listIsContiguous coords = true ∧
    2 ≤ coords.length ∧ coords.length ≤ 5 := by
  unfold validate_ship_placement at h
  split_ifs at h with h1 h2 h3 h4 h5 h6
  refine ⟨?_, ?_, ?_, ?_, ?_⟩
  · rw [List.all_eq_true] at h1
    intro c hc
    have := h1 c hc
    simpa [Board.in_bounds] using this
  · intro c hc hs
    apply h4
    rw [List.any_eq_true]
    exact ⟨c, hc, by rw [hs]; simp⟩
  · simpa using h2
  · simpa using h3
  · omega

theorem wrapper_validate_ok (board : Board) (coords : List Coordinate)
    (h : ShipValidator.validate_ship_placement board BOARD_SIZE coords =
      Except.ok ()) :
    validate_ship_placement board coords 10 = Except.ok () := by
  unfold ShipValidator.validate_ship_placement at h
  split_ifs at h
  exact h

theorem placeShipsLoop_ok_spec (groups : List String) :
    ∀ (own : Board) (scnt : Nat) (cnt : ShipCounts) (total : Nat)
      (acc : List (List Coordinate)) (own' : Board) (scnt' : Nat)
      (cnt' : ShipCounts) (total' : Nat) (acc' : List (List Coordinate)),
      placeShipsLoop groups own scnt cnt total acc =
        Except.ok (own', scnt', cnt', total', acc') →
      ∃ ns : List (List Coordinate),
        acc' = acc ++ ns ∧
        total' = total + ns.length ∧
        scnt' = scnt + (ns.map List.length).sum ∧
        cnt'.len2 = cnt.len2 + ns.countP (fun g => g.length == 2) ∧
        cnt'.len3 = cnt.len3 + ns.countP (fun g => g.length == 3) ∧
        cnt'.len4 = cnt.len4 + ns.countP (fun g => g.length == 4) ∧
        cnt'.len5 = cnt.len5 + ns.countP (fun g => g.length == 5) ∧
        (∀ g ∈ ns, 2 ≤ g.length ∧ g.length ≤ 5) ∧
        (∀ g ∈ ns, ∀ c ∈ g, c.x < 10 ∧ c.y < 10) ∧
        own'.cells.length = own.cells.length ∧
        (own.cells.length = 100 → ns.flatten.Nodup →
          own'.ship_count = own.ship_count + (ns.map List.length).sum) := by
  induction groups with
  | nil =>
    intro own scnt cnt total acc own' scnt' cnt' total' acc' h
    obtain ⟨h1, h2, h3, h4, h5⟩ : own = own' ∧ scnt = scnt' ∧ cnt = cnt' ∧
        total = total' ∧ acc = acc' := by
      simpa [placeShipsLoop] using h
    subst h1; subst h2; subst h3; subst h4; subst h5
    exact ⟨[], by simp⟩
  | cons g rest ih =>
    intro own scnt cnt total acc own' scnt' cnt' total' acc' h
    simp only [placeShipsLoop] at h
    by_cases hemp : (ShipValidator.parse_ship_coords g).isEmpty
    · rw [if_pos hemp] at h
      exact ih own scnt cnt total acc own' scnt' cnt' total' acc' h
    · rw [if_neg hemp] at h
      by_cases hlen25 :
          (ShipValidator.parse_ship_coords g).length < 2 ∨
          (ShipValidator.parse_ship_coords g).length > 5
      · rw [if_pos hlen25] at h
        simp at h
      · rw [if_neg hlen25] at h
        rw [if_neg (by omega)] at h
        rcases hv : ShipValidator.validate_ship_placement own BOARD_SIZE
            (ShipValidator.parse_ship_coords g) with e | u
        · rw [hv] at h
          simp at h
        · cases u
          rw [hv] at h
          simp only at h
          obtain ⟨ns, hacc, htot, hscnt, hc2, hc3, hc4, hc5, hlens, hbds,
              hlenpres, hcount⟩ :=
            ih _ _ _ _ _ _ _ _ _ _ h
          obtain ⟨hbd0, hns0, _, _, hL2, hL5⟩ :=
            validate_ship_placement_ok_facts own
              (ShipValidator.parse_ship_coords g) (wrapper_validate_ok _ _ hv)
          refine ⟨ShipValidator.parse_ship_coords g :: ns, ?_, ?_, ?_, ?_, ?_,
            ?_, ?_, ?_, ?_, ?_, ?_⟩
          · rw [hacc, List.append_assoc]
            rfl
          · rw [htot]
            simp
            omega
          · rw [hscnt]
            simp
            omega
          · rcases (by omega : (ShipValidator.parse_ship_coords g).length = 2 ∨
                (ShipValidator.parse_ship_coords g).length = 3 ∨
                (ShipValidator.parse_ship_coords g).length = 4 ∨
                (ShipValidator.parse_ship_coords g).length = 5) with
                hL | hL | hL | hL <;>
              (simp_all [ShipCounts.bump, List.countP_cons]; try omega)
          · rcases (by omega : (ShipValidator.parse_ship_coords g).length = 2 ∨
                (ShipValidator.parse_ship_coords g).length = 3 ∨
                (ShipValidator.parse_ship_coords g).length = 4 ∨
                (ShipValidator.parse_ship_coords g).length = 5) with
                hL | hL | hL | hL <;>
              (simp_all [ShipCounts.bump, List.countP_cons]; try omega)
          · rcases (by omega : (ShipValidator.parse_ship_coords g).length = 2 ∨
                (ShipValidator.parse_ship_coords g).length = 3 ∨
                (ShipValidator.parse_ship_coords g).length = 4 ∨
                (ShipValidator.parse_ship_coords g).length = 5) with
                hL | hL | hL | hL <;>
              (simp_all [ShipCounts.bump, List.countP_cons]; try omega)
          · rcases (by omega : (ShipValidator.parse_ship_coords g).length = 2 ∨
                (ShipValidator.parse_ship_coords g).length = 3 ∨
                (ShipValidator.parse_ship_coords g).length = 4 ∨
                (ShipValidator.parse_ship_coords g).length = 5) with
                hL | hL | hL | hL <;>
              (simp_all [ShipCounts.bump, List.countP_cons]; try omega)
          · intro gg hgg
            rcases List.mem_cons.mp hgg with hgg | hgg
            · rw [hgg]; omega
            · exact hlens gg hgg
          · intro gg hgg
            rcases List.mem_cons.mp hgg with hgg | hgg
            · rw [hgg]; exact hbd0
            · exact hbds gg hgg
          · rw [hlenpres, placeCoords_length]
          · intro hlen100 hnodup
            rw [List.flatten_cons] at hnodup
            have hnd1 : (ShipValidator.parse_ship_coords g).Nodup :=
              (List.nodup_append.mp hnodup).1
            have hnd2 : ns.flatten.Nodup := (List.nodup_append.mp hnodup).2.1
            have hlen100b :
                (placeCoords own (ShipValidator.parse_ship_coords g)).cells.length
                  = 100 := by
              rw [placeCoords_length]; exact hlen100
            rw [hcount hlen100b hnd2,
              placeCoords_spec (ShipValidator.parse_ship_coords g) own
                hlen100 hnd1 hbd0 hns0]
            simp
            omega

theorem validate_fleet_composition_ok_facts (counts : ShipCounts)
    (coords : List (List Coordinate))
    (h : validate_fleet_composition counts coords = Except.ok ()) :
    counts.len2 = 1 ∧ counts.len3 = 2 ∧ counts.len4 = 1 ∧ counts.len5 = 1 ∧
      coords.flatten.Nodup := by
  unfold validate_fleet_composition at h
  split_ifs at h with h1 h2 h3
  exact ⟨h1.1, h1.2.1, h1.2.2.1, h1.2.2.2, h2⟩

theorem sum_lengths_eq (gs : List (List Coordinate))
    (hl : ∀ g ∈ gs, 2 ≤ g.length ∧ g.length ≤ 5) :
    (gs.map List.length).sum =
      2 * gs.countP (fun g => g.length == 2) +
      3 * gs.countP (fun g => g.length == 3) +
      4 * gs.countP (fun g => g.length == 4) +
      5 * gs.countP (fun g => g.length == 5) := by
  induction gs with
  | nil => simp
  | cons g rest ih =>
    have hg := hl g (List.mem_cons_self g rest)
    have hrest := ih (fun x hx => hl x (List.mem_cons_of_mem g hx))
    rcases (by omega : g.length = 2 ∨ g.length = 3 ∨ g.length = 4 ∨
        g.length = 5) with hL | hL | hL | hL <;>
      simp [List.countP_cons, hL, hrest] <;> omega

theorem place_ships_ok_adds (pb : PlayerBoard) (gs : List String)
    (pb' : PlayerBoard) (hlen : pb.own.cells.length = 100)
    (h : PlayerBoard.place_ships pb gs = (pb', none)) :
    pb'.ships = pb.ships + 17 ∧
    pb'.own.ship_count = pb.own.ship_count + 17 ∧
    pb'.placed = true := by
  unfold PlayerBoard.place_ships at h
  by_cases hp : pb.placed
  · rw [if_pos hp] at h
    simp at h
  · rw [if_neg hp] at h
    cases hloop : placeShipsLoop gs pb.own pb.ships
        { len2 := 0, len3 := 0, len4 := 0, len5 := 0 } 0 [] with
    | error t =>
      obtain ⟨own'', scnt'', e⟩ := t
      rw [hloop] at h
      simp at h
    | ok t =>
      obtain ⟨own', scnt', counts, total, all_coords⟩ := t
      rw [hloop] at h
      dsimp only at h
      by_cases htz : total = 0
      · rw [if_pos htz] at h
        simp at h
      · rw [if_neg htz] at h
        cases hcomp : validate_fleet_composition counts all_coords with
        | error e =>
          rw [hcomp] at h
          simp at h
        | ok u =>
          cases u
          rw [hcomp] at h
          have hpb : pb' = { pb with own := own', ships := scnt', placed := true } := by
            have := congrArg Prod.fst h
            simpa using this.symm
          obtain ⟨ns, hacc, htot, hscnt, hc2, hc3, hc4, hc5, hlens, hbds,
              hlenp, hcount⟩ :=
            placeShipsLoop_ok_spec gs _ _ _ _ _ _ _ _ _ _ hloop
          obtain ⟨k2, k3, k4, k5, hnodup⟩ :=
            validate_fleet_composition_ok_facts counts all_coords hcomp
          have hns : all_coords = ns := by simpa using hacc
          subst hns
          have hsum : (all_coords.map List.length).sum = 17 := by
            rw [sum_lengths_eq all_coords hlens]
            simp at hc2 hc3 hc4 hc5
            omega
          refine ⟨?_, ?_, ?_⟩
          · rw [hpb]
            show scnt' = pb.ships + 17
            omega
          · rw [hpb]
            show own'.ship_count = pb.own.ship_count + 17
            have := hcount hlen hnodup
            omega
          · rw [hpb]

theorem propose_shot_ok_facts (m : Match) (s : PublicKey) (x y : Nat)
    (m' : Match) (h : Match.propose_shot m s x y = Except.ok m') :
    m'.pending_x = some x ∧ m'.pending_y = some y ∧
    m'.pending_shooter = some s ∧
    m'.pending_target = some (m.get_opponent s) ∧
    m'.turn = m.turn ∧ m'.player1 = m.player1 ∧ m'.player2 = m.player2 ∧
    m'.winner = m.winner ∧ m'.placed_p1 = m.placed_p1 ∧
    m'.placed_p2 = m.placed_p2 ∧
    x < 10 ∧ y < 10 ∧ m.turn = s ∧ m.winner = none ∧
    m.both_players_placed = true ∧ m.has_pending_shot = false ∧
    m.is_player s = true ∧
    (s = m.player1 →
      m'.shots_p1 = m.shots_p1.set BOARD_SIZE x y Cell.Pending ∧
      m'.shots_p2 = m.shots_p2) ∧
    (s ≠ m.player1 →
      m'.shots_p2 = m.shots_p2.set BOARD_SIZE x y Cell.Pending ∧
      m'.shots_p1 = m.shots_p1) := by
  unfold Match.propose_shot at h
  split_ifs at h with h1 h2 h3 h4 h5 h6 hsp
  · have hwin : m.winner = none := by
      unfold Match.is_finished at h1
      simp_all
    have hturn : m.turn = s := by
      unfold Match.is_turn at h6
      simpa using h6
    have hxy : x < 10 ∧ y < 10 := by
      unfold BOARD_SIZE at h3
      omega
    have hm' := Except.ok.inj h
    subst hm'
    refine ⟨rfl, rfl, rfl, rfl, rfl, rfl, rfl, rfl, rfl, rfl,
      hxy.1, hxy.2, hturn, hwin, ?_, ?_, ?_, ?_, ?_⟩
    · simpa using h2
    · simpa [Bool.not_eq_true] using h4
    · simpa using h5
    · exact fun _ => ⟨rfl, rfl⟩
    · exact fun hne => absurd hsp hne
  · have hwin : m.winner = none := by
      unfold Match.is_finished at h1
      simp_all
    have hturn : m.turn = s := by
      unfold Match.is_turn at h6
      simpa using h6
    have hxy : x < 10 ∧ y < 10 := by
      unfold BOARD_SIZE at h3
      omega
    have hm' := Except.ok.inj h
    subst hm'
    refine ⟨rfl, rfl, rfl, rfl, rfl, rfl, rfl, rfl, rfl, rfl,
      hxy.1, hxy.2, hturn, hwin, ?_, ?_, ?_, ?_, ?_⟩
    · simpa using h2
    · simpa [Bool.not_eq_true] using h4
    · simpa using h5
    · exact fun hh => absurd hh hsp
    · exact fun _ => ⟨rfl, rfl⟩

theorem resolve_shot_some_imp_pending (m : Match) (hit : Bool)
    (p : Match × String) (h : Match.resolve_shot m hit = some p) :
    ∃ x y s, m.pending_x = some x ∧ m.pending_y = some y ∧
      m.pending_shooter = some s := by
  unfold Match.resolve_shot at h
  rcases hx : m.pending_x with - | x
  · rw [hx] at h; simp at h
  · rcases hy : m.pending_y with - | y
    · rw [hx, hy] at h; simp at h
    · rcases hs : m.pending_shooter with - | s
      · rw [hx, hy, hs] at h; simp at h
      · exact ⟨x, y, s, rfl, rfl, rfl⟩

theorem resolve_shot_eq (m : Match) (hit : Bool) {x y : Nat} {s : PublicKey}
    (hx : m.pending_x = some x) (hy : m.pending_y = some y)
    (hs : m.pending_shooter = some s) (m' : Match) (r : String)
    (h : Match.resolve_shot m hit = some (m', r)) :
    r = (if hit then "hit" else "miss") ∧
    m'.pending_x = none ∧ m'.pending_y = none ∧
    m'.pending_shooter = none ∧ m'.pending_target = none ∧
    m'.player1 = m.player1 ∧ m'.player2 = m.player2 ∧
    m'.winner = m.winner ∧ m'.placed_p1 = m.placed_p1 ∧
    m'.placed_p2 = m.placed_p2 ∧
    (m.winner = none → m'.turn = m.get_opponent m.turn) ∧
    (m.winner ≠ none → m'.turn = m.turn) := by
  unfold Match.resolve_shot at h
  rw [hx, hy, hs] at h
  dsimp only at h
  obtain ⟨hm, hr⟩ : _ = m' ∧ _ = r := by
    constructor
    · exact congrArg Prod.fst (Option.some.inj h)
    · exact congrArg Prod.snd (Option.some.inj h)
  subst hm
  subst hr
  by_cases hw : m.winner = none <;>
    by_cases hsp : s = m.player1 <;>
      simp_all [Match.switch_turn, Match.get_opponent]

theorem reachable_pending_bounds {m : Match} (h : Reachable m) :
    (∀ x, m.pending_x = some x → x < 10) ∧
    (∀ y, m.pending_y = some y → y < 10) := by
  induction h with
  | new id p1 p2 => simp [Match.new]
  | propose hm hp ih =>
    obtain ⟨hx, hy, -, -, -, -, -, -, -, -, hx10, hy10, -⟩ :=
      propose_shot_ok_facts _ _ _ _ _ hp
    constructor
    · intro a ha
      rw [hx] at ha
      have := Option.some.inj ha
      omega
    · intro b hb
      rw [hy] at hb
      have := Option.some.inj hb
      omega
  | ack hm ha ih => exact ih
  | resolve hm hr ih =>
    obtain ⟨x, y, s, hx, hy, hs⟩ := resolve_shot_some_imp_pending _ _ _ hr
    obtain ⟨-, hx', hy', -⟩ := resolve_shot_eq _ _ hx hy hs _ _ hr
    constructor
    · intro a ha; rw [hx'] at ha; cases ha
    · intro b hb; rw [hy'] at hb; cases hb
  | winner hm ih => exact ih
  | place1 hm ih => exact ih
  | place2 hm ih => exact ih

/-! Claim theorems. -/

/-- C1 (amended): Ship::new succeeds exactly on coordinate lists whose
length, reduced mod 256 by the truncating u8 cast of len(), lies in 2
to 5 and whose coordinates are all in bounds, and fails with an Invalid
error otherwise; straightness and contiguity are not checked by the
constructor (they are enforced by the placement validation pipeline,
not by Ship::new), and a 258-element list wraps to length 2 and is
accepted. -/
theorem claim_C1_ship_new_characterization (cs : List Coordinate) :
    if 2 ≤ cs.length % 256 ∧ cs.length % 256 ≤ 5 ∧
        (∀ c ∈ cs, c.is_valid = true)
    then Ship.new cs =
      Except.ok { coordinates := cs, length := cs.length % 256 }
    else ∃ msg, Ship.new cs = Except.error (GameError.Invalid msg) := by
  by_cases hP : 2 ≤ cs.length % 256 ∧ cs.length % 256 ≤ 5 ∧
      (∀ c ∈ cs, c.is_valid = true)
  · rw [if_pos hP]
    have hne : cs.isEmpty = false := by
      cases cs
      · simp at hP
      · rfl
    have hval : (cs.any fun c => ! c.is_valid) = false := by
      rw [List.any_eq_false]
      intro c hc
      rw [hP.2.2 c hc]
      simp
    have h1 : ¬ (cs.length % 256 < 2 ∨ cs.length % 256 > 5) := by omega
    simp [Ship.new, hne, hval, h1]
  · rw [if_neg hP]
    by_cases he : cs.isEmpty
    · exact ⟨"ship cannot be empty", by simp [Ship.new, he]⟩
    · by_cases hl : cs.length % 256 < 2 ∨ cs.length % 256 > 5
      · exact ⟨"ship length must be 2-5", by simp [Ship.new, he, hl]⟩
      · have hv : ¬ ∀ c ∈ cs, c.is_valid = true := by
          intro hall
          exact hP ⟨by omega, by omega, hall⟩
        push_neg at hv
        obtain ⟨c, hc, hcv⟩ := hv
        have hany : (cs.any fun c => ! c.is_valid) = true := by
          rw [List.any_eq_true]
          refine ⟨c, hc, ?_⟩
          simp only [Bool.not_eq_true] at hcv
          rw [hcv]
          rfl
        exact ⟨"ship contains invalid coordinates",
          by simp [Ship.new, he, hl, hany]⟩

set_option maxRecDepth 4000 in
/-- C1 counterexample: the diagonal two-cell list (0,0),(1,1) is neither
straight nor contiguous, yet Ship::new accepts it; and a 258-element
list of valid coordinates, far outside the claimed 2 to 5 bound, also
succeeds because the u8 cast wraps its length to 2. Both refute the
claimed failure direction of Ship::new. -/
theorem claim_C1_counterexample :
    Ship.new diagCoords = Except.ok diagShip ∧
    diagShip.is_straight = false ∧
    diagShip.is_contiguous = false ∧
    wrapCoords.length = 258 ∧
    Ship.new wrapCoords = Except.ok wrapShip := by
  exact ⟨rfl, rfl, rfl, rfl, rfl⟩

/-- C2: the code is not all-or-nothing. At the failing input consisting
of the single valid ship (0,0),(1,0) on a fresh board, place_ships
returns an error from the final fleet-composition check, yet both Ship
cells remain written on the own board and the remaining-ship counter is
left at 2. -/
theorem claim_C2_partial_commit_at_failing_input :
    (PlayerBoard.place_ships PlayerBoard.new ["0,0;1,0"]).2 ≠ none ∧
    (PlayerBoard.place_ships PlayerBoard.new ["0,0;1,0"]).1.own.get 10 0 0 =
      Cell.Ship ∧
    (PlayerBoard.place_ships PlayerBoard.new ["0,0;1,0"]).1.own.get 10 1 0 =
      Cell.Ship ∧
    (PlayerBoard.place_ships PlayerBoard.new ["0,0;1,0"]).1.ships = 2 ∧
    (PlayerBoard.place_ships PlayerBoard.new ["0,0;1,0"]).1.placed = false := by
  decide

/-- C9: calling place_ships on an already-placed board fails with the
Invalid error and returns the board unchanged, regardless of input. -/
theorem claim_C9_already_placed (pb : PlayerBoard) (gs : List String)
    (hp : pb.placed = true) :
    PlayerBoard.place_ships pb gs =
      (pb, some (GameError.Invalid "already placed")) := by
  unfold PlayerBoard.place_ships
  rw [if_pos hp]

/-- C9 witness: a concrete placed board with a concrete input. -/
theorem claim_C9_witness :
    PlayerBoard.place_ships { PlayerBoard.new with placed := true }
        ["0,0;1,0"] =
      ({ PlayerBoard.new with placed := true },
        some (GameError.Invalid "already placed")) :=
  claim_C9_already_placed { PlayerBoard.new with placed := true }
    ["0,0;1,0"] rfl

/-- C3 (amended): when the target own-board cell at the pending
coordinates is not Ship, ShotResolver::resolve_shot does mutate the
target own board: it writes Miss at the pending coordinates (leaving
every other cell unchanged, since Board::set touches one index), while
the remaining-ship counter stays unchanged and the outcome is miss. -/
theorem claim_C3_miss_writes_target_board (m : Match) (pb : PlayerBoard)
    (x y : Nat) (m' : Match) (pb' : PlayerBoard) (r : String)
    (hx : m.pending_x = some x) (hy : m.pending_y = some y)
    (hnot : pb.own.get 10 x y ≠ Cell.Ship)
    (h : ShotResolver.resolve_shot m pb = Except.ok (m', pb', r)) :
    pb' = { pb with own := pb.own.set 10 x y Cell.Miss } ∧
    pb'.ships = pb.ships ∧ r = "miss" := by
  unfold ShotResolver.resolve_shot at h
  rw [hx, hy] at h
  rcases hs : m.pending_shooter with - | s
  · rw [hs] at h
    simp at h
  · rw [hs] at h
    dsimp only at h
    have hbe : (pb.get_board.get BOARD_SIZE x y == Cell.Ship) = false := by
      simpa [PlayerBoard.get_board, BOARD_SIZE] using hnot
    rw [hbe] at h
    simp only [Bool.false_eq_true, if_false, Bool.false_and] at h
    rcases hres : m.resolve_shot false with - | p
    · rw [hres] at h
      simp at h
    · obtain ⟨ms2, result⟩ := p
      rw [hres] at h
      dsimp only at h
      obtain ⟨hr1, -⟩ := resolve_shot_eq m false hx hy hs ms2 result hres
      have hinj := Except.ok.inj h
      obtain ⟨h1, h2, h3⟩ : ms2 = m' ∧ _ = pb' ∧ result = r := by
        simpa using hinj
      subst h3
      refine ⟨h2.symm, ?_, by simpa using hr1⟩
      rw [← h2]

/-- C3 counterexample: resolving the pending shot of pendingMatchEx
against a fresh target board mutates the target own board, turning the
Empty cell at (0,0) into Miss, refuting the no-mutation claim. -/
theorem claim_C3_counterexample :
    (ShotResolver.resolve_shot pendingMatchEx PlayerBoard.new).toOption.map
        (fun t => (t.2.1.own.get 10 0 0, t.2.2)) =
      some (Cell.Miss, "miss") ∧
    PlayerBoard.new.own.get 10 0 0 = Cell.Empty := by
  exact ⟨rfl, rfl⟩

/-- C3 witness: the amended theorem applied at the concrete pending
match and fresh target board. -/
theorem claim_C3_witness :
    missedPbEx =
      { PlayerBoard.new with
        own := PlayerBoard.new.own.set 10 0 0 Cell.Miss } ∧
    missedPbEx.ships = PlayerBoard.new.ships ∧ "miss" = "miss" :=
  claim_C3_miss_writes_target_board pendingMatchEx PlayerBoard.new 0 0
    resolvedMissEx missedPbEx "miss" rfl rfl (by decide) (by exact rfl)

/-- C5: when the target own-board cell at the pending coordinates is
Ship and the counter reaches zero after the decrement, the resolver sets
the pending shooter as winner and the subsequent Match::resolve_shot
leaves the turn unchanged. -/
theorem claim_C5_win_sets_winner_keeps_turn (m : Match) (pb : PlayerBoard)
    (x y : Nat) (s : PublicKey) (m' : Match) (pb' : PlayerBoard) (r : String)
    (hx : m.pending_x = some x) (hy : m.pending_y = some y)
    (hs : m.pending_shooter = some s)
    (hship : pb.own.get 10 x y = Cell.Ship)
    (hzero : (PlayerBoard.decrement_ships pb).ships = 0)
    (h : ShotResolver.resolve_shot m pb = Except.ok (m', pb', r)) :
    m'.winner = some s ∧ m'.turn = m.turn ∧ r = "hit" := by
  unfold ShotResolver.resolve_shot at h
  rw [hx, hy, hs] at h
  dsimp only at h
  have hbe : (pb.get_board.get BOARD_SIZE x y == Cell.Ship) = true := by
    simpa [PlayerBoard.get_board, BOARD_SIZE] using hship
  rw [hbe] at h
  have hdec : (({ pb with own := pb.own.set BOARD_SIZE x y Cell.Hit } :
      PlayerBoard).decrement_ships).get_ship_count = 0 := by
    simp only [PlayerBoard.get_ship_count, PlayerBoard.decrement_ships]
      at hzero ⊢
    by_cases hp0 : pb.ships > 0 <;> simp_all
  simp only [if_true, Bool.true_and, beq_iff_eq] at h
  rw [if_pos hdec] at h
  have hmx : (m.set_winner s).pending_x = some x := hx
  have hmy : (m.set_winner s).pending_y = some y := hy
  have hms : (m.set_winner s).pending_shooter = some s := hs
  rcases hres : (m.set_winner s).resolve_shot true with - | p
  · rw [hres] at h
    simp at h
  · obtain ⟨ms2, result⟩ := p
    rw [hres] at h
    dsimp only at h
    obtain ⟨hr1, -, -, -, -, -, -, hw, -, -, -, hsw2⟩ :=
      resolve_shot_eq (m.set_winner s) true hmx hmy hms ms2 result hres
    have hinj := Except.ok.inj h
    obtain ⟨h1, h2, h3⟩ : ms2 = m' ∧ _ = pb' ∧ result = r := by
      simpa using hinj
    subst h1
    subst h3
    refine ⟨?_, ?_, by simpa using hr1⟩
    · rw [hw]
      rfl
    · have hturn := hsw2 (by simp [Match.set_winner])
      rw [hturn]
      rfl

/-- C5 witness: player1 has a pending shot at (0,0); the target board
holds its last Ship cell there with counter 1; resolution sets player1
as winner and keeps the turn with player1. -/
theorem claim_C5_witness :
    resolvedHitEx.winner = some p1ex ∧
    resolvedHitEx.turn = pendingMatchEx.turn ∧ "hit" = "hit" :=
  claim_C5_win_sets_winner_keeps_turn pendingMatchEx pbShipAt00 0 0 p1ex
    resolvedHitEx hitPbEx "hit" rfl rfl rfl (by decide) (by decide) (by rfl)

/-- C6: after a successful propose_shot by the shooter, a resolve_shot
on a match whose winner is still absent hands the turn to the opponent
of the pending shooter. -/
theorem claim_C6_resolve_switches_turn (m : Match) (s : PublicKey)
    (x y : Nat) (m1 : Match)
    (hp : Match.propose_shot m s x y = Except.ok m1)
    (hw : m1.winner = none) (hit : Bool) (m2 : Match) (r : String)
    (hr : Match.resolve_shot m1 hit = some (m2, r)) :
    m2.turn = m1.get_opponent s := by
  obtain ⟨hx, hy, hs, -, hturn, -, -, -, -, -, -, -, hts, -, -, -, -, -, -⟩ :=
    propose_shot_ok_facts m s x y m1 hp
  obtain ⟨-, -, -, -, -, -, -, -, -, -, hswitch, -⟩ :=
    resolve_shot_eq m1 hit hx hy hs m2 r hr
  rw [hswitch hw, hturn, hts]

/-- C6 witness: resolving the pending shot of pendingMatchEx as a miss
passes the turn to player2, the opponent of the shooter player1. -/
theorem claim_C6_witness :
    resolvedMissEx.turn = pendingMatchEx.get_opponent p1ex :=
  claim_C6_resolve_switches_turn matchReady p1ex 0 0 pendingMatchEx
    (by rfl) (by rfl) false resolvedMissEx "miss" (by rfl)

/-- C7: propose_shot fails exactly when the match is finished, both
players have not placed, a coordinate is out of range, a shot is already
pending, the shooter is not a player, or it is not the shooter turn; on
success it marks the shooter shot-history cell Pending at (x, y),
records the pending shot with the opponent as target, and leaves the
turn unchanged. The two length hypotheses say the shot-history boards
hold the full 100 cells, as every board built by Match::new does; the
Rust cell write would panic otherwise. -/
theorem claim_C7_propose_contract (m : Match) (s : PublicKey) (x y : Nat)
    (hb1 : m.shots_p1.cells.length = 100)
    (hb2 : m.shots_p2.cells.length = 100) :
    ((∃ e, Match.propose_shot m s x y = Except.error e) ↔
      (m.is_finished = true ∨ m.both_players_placed = false ∨
       10 ≤ x ∨ 10 ≤ y ∨ m.has_pending_shot = true ∨
       m.is_player s = false ∨ m.is_turn s = false)) ∧
    (∀ m', Match.propose_shot m s x y = Except.ok m' →
      (m'.get_shots_for_player s).get 10 x y = Cell.Pending ∧
      m'.pending_x = some x ∧ m'.pending_y = some y ∧
      m'.pending_shooter = some s ∧
      m'.pending_target = some (m.get_opponent s) ∧
      m'.turn = m.turn) := by
  constructor
  · constructor
    · rintro ⟨e, he⟩
      by_contra hdisj
      push_neg at hdisj
      obtain ⟨hd1, hd2, hd3, hd4, hd5, hd6, hd7⟩ := hdisj
      have hok : ∃ m', Match.propose_shot m s x y = Except.ok m' := by
        unfold Match.propose_shot
        rw [if_neg (by simp [hd1] : ¬ m.is_finished = true)]
        rw [if_neg (by simp [Bool.not_eq_false] at hd2; simp [hd2])]
        rw [if_neg (by unfold BOARD_SIZE; omega :
          ¬ (x ≥ BOARD_SIZE ∨ y ≥ BOARD_SIZE))]
        rw [if_neg (by simp [hd5] : ¬ m.has_pending_shot = true)]
        rw [if_neg (by simp [Bool.not_eq_false] at hd6; simp [hd6])]
        rw [if_neg (by simp [Bool.not_eq_false] at hd7; simp [hd7])]
        exact ⟨_, rfl⟩
      obtain ⟨m', hm'⟩ := hok
      rw [hm'] at he
      cases he
    · intro hdisj
      rcases hp : Match.propose_shot m s x y with e | m0
      · exact ⟨e, rfl⟩
      · exfalso
        obtain ⟨-, -, -, -, -, -, -, -, -, -, hx10, hy10, hts, hwin, hboth,
            hpend, hplay, -, -⟩ := propose_shot_ok_facts m s x y m0 hp
        rcases hdisj with hd | hd | hd | hd | hd | hd | hd
        · rw [Match.is_finished, hwin] at hd
          cases hd
        · rw [hboth] at hd
          cases hd
        · omega
        · omega
        · rw [hpend] at hd
          cases hd
        · rw [hplay] at hd
          cases hd
        · rw [Match.is_turn, hts] at hd
          simp at hd
  · intro m' hm'
    obtain ⟨hx, hy, hs, ht, hturn, hp1, hp2, -, -, -, hx10, hy10, -, -, -, -,
        -, himp1, himp2⟩ := propose_shot_ok_facts m s x y m' hm'
    refine ⟨?_, hx, hy, hs, ht, hturn⟩
    unfold Match.get_shots_for_player
    by_cases hsp : s = m'.player1
    · rw [if_pos hsp]
      have hshots := (himp1 (by rw [hsp, hp1])).1
      rw [hshots]
      exact Board.get_set_self m.shots_p1 Cell.Pending hx10 hy10 hb1
    · rw [if_neg hsp]
      have hshots := (himp2 (by rw [hp1] at hsp; exact hsp)).1
      rw [hshots]
      exact Board.get_set_self m.shots_p2 Cell.Pending hx10 hy10 hb2

/-- C7 witness: on the ready match, the proposal of player1 at (0,0)
succeeds and produces the expected pending state and Pending mark. -/
theorem claim_C7_witness :
    pendingMatchEx.pending_x = some 0 ∧
    (pendingMatchEx.get_shots_for_player p1ex).get 10 0 0 = Cell.Pending := by
  have h := (claim_C7_propose_contract matchReady p1ex 0 0
    (by decide) (by decide)).2 pendingMatchEx (by rfl)
  exact ⟨h.2.1, h.1⟩

/-- C8: in every state reachable from Match::new under the embedded
operations, the four pending-shot fields are all present or all
absent. -/
theorem claim_C8_pending_consistency {m : Match} (h : Reachable m) :
    pendingAllSome m ∨ pendingAllNone m := by
  induction h with
  | new id p1 p2 =>
    right
    exact ⟨rfl, rfl, rfl, rfl⟩
  | propose hm hp ih =>
    obtain ⟨hx, hy, hs, ht, -⟩ := propose_shot_ok_facts _ _ _ _ _ hp
    left
    refine ⟨?_, ?_, ?_, ?_⟩ <;> simp [hx, hy, hs, ht]
  | ack hm ha ih => exact ih
  | resolve hm hr ih =>
    obtain ⟨x, y, s, hx, hy, hs⟩ := resolve_shot_some_imp_pending _ _ _ hr
    obtain ⟨-, h1, h2, h3, h4, -⟩ := resolve_shot_eq _ _ hx hy hs _ _ hr
    right
    exact ⟨h1, h2, h3, h4⟩
  | winner hm ih => exact ih
  | place1 hm ih => exact ih
  | place2 hm ih => exact ih

/-- C8 witness: the initial match state satisfies the invariant. -/
theorem claim_C8_witness :
    pendingAllSome (Match.new "m" p1ex p2ex) ∨
    pendingAllNone (Match.new "m" p1ex p2ex) :=
  claim_C8_pending_consistency (Reachable.new "m" p1ex p2ex)

/-- C10: in every reachable state whose pending coordinates are present,
those coordinates are below 10, so the row-major index Board::idx
computes on the shot-resolution path stays below the 100-element cell
vector and the Board::get and Board::set calls there are in bounds. -/
theorem claim_C10_pending_in_bounds {m : Match} (h : Reachable m) :
    ∀ x y, m.pending_x = some x → m.pending_y = some y →
      x < 10 ∧ y < 10 ∧ Board.idx 10 x y < 100 ∧
      (∀ b : Board, b.cells.length = 100 →
        Board.idx 10 x y < b.cells.length) := by
  intro x y hx hy
  have hb := reachable_pending_bounds h
  have hx10 := hb.1 x hx
  have hy10 := hb.2 y hy
  refine ⟨hx10, hy10, Board.idx_lt hx10 hy10, ?_⟩
  intro b hb100
  rw [hb100]
  exact Board.idx_lt hx10 hy10

/-- C10 witness: the proposal of player1 at (0,0) on the ready match is
reachable and its pending index is in bounds. -/
theorem claim_C10_witness :
    (0 : Nat) < 10 ∧ (0 : Nat) < 10 ∧ Board.idx 10 0 0 < 100 := by
  have hre : Reachable matchReady :=
    Reachable.place2 (Reachable.place1 (Reachable.new "m" p1ex p2ex))
  have hpend : Reachable pendingMatchEx :=
    @Reachable.propose matchReady p1ex 0 0 pendingMatchEx hre (by rfl)
  have h := claim_C10_pending_in_bounds hpend 0 0 rfl rfl
  exact ⟨h.1, h.2.1, h.2.2.1⟩

/-- C4 (amended): a successful place_ships adds exactly 17 Ship cells
and 17 counter units on top of whatever the board already held: the
mandated fleet of lengths 5, 4, 3, 3, 2 totals 17 cells, not the 14 the
spec states, and a board left dirty by an earlier failed call keeps its
extra cells. On a fresh board a success therefore ends with exactly 17
Ship cells and counter 17. -/
theorem claim_C4_success_totals (pb : PlayerBoard) (gs : List String)
    (pb' : PlayerBoard) (hlen : pb.own.cells.length = 100)
    (h : PlayerBoard.place_ships pb gs = (pb', none)) :
    pb'.ships = pb.ships + 17 ∧
    pb'.own.ship_count = pb.own.ship_count + 17 ∧
    pb'.placed = true :=
  place_ships_ok_adds pb gs pb' hlen h

/-- C4 counterexample: the concrete legal fleet succeeds on a fresh
board and leaves counter and Ship-cell count at 17, not 14. -/
theorem claim_C4_counterexample :
    (PlayerBoard.place_ships PlayerBoard.new fleetEx).2 = none ∧
    (PlayerBoard.place_ships PlayerBoard.new fleetEx).1.ships ≠ 14 ∧
    (PlayerBoard.place_ships PlayerBoard.new fleetEx).1.own.ship_count ≠ 14 := by
  decide

/-- C4 witness: the amended theorem applied to the concrete fleet on a
fresh board. -/
theorem claim_C4_witness :
    (PlayerBoard.place_ships PlayerBoard.new fleetEx).1.ships =
      PlayerBoard.new.ships + 17 ∧
    (PlayerBoard.place_ships PlayerBoard.new fleetEx).1.own.ship_count =
      PlayerBoard.new.own.ship_count + 17 ∧
    (PlayerBoard.place_ships PlayerBoard.new fleetEx).1.placed = true := by
  have hsnd : (PlayerBoard.place_ships PlayerBoard.new fleetEx).2 = none := by
    decide
  have hpair : PlayerBoard.place_ships PlayerBoard.new fleetEx =
      ((PlayerBoard.place_ships PlayerBoard.new fleetEx).1, none) := by
    rw [← hsnd]
  exact claim_C4_success_totals PlayerBoard.new fleetEx _ (by decide) hpair

end Battleship











